import Mathlib

/-
Verification of the ezpzdb persistence engine (src/ezpzdb/db/db.js and
src/ezpzdb/db/effset.js) against its natural-language specification.

The JavaScript source is shallowly embedded: the Database class becomes a
record of in-memory state plus a small model of the per-table on-disk files,
and each public operation becomes an executable Lean function returning
`Except Err` (a thrown Error is `Except.error`).  JavaScript peculiarities the
source relies on are modelled explicitly:
  - property access `.id` on a plain number yields `undefined` (`jsNumId`),
  - relational comparisons against `undefined` are false (`jsLtOptInt`,
    `jsGtOpt`),
  - a function that ends without executing a `return` statement yields
    `undefined` (`GetResult.undef`),
  - `Array.prototype.findIndex` yields -1 when nothing matches
    (`jsFindIndex`).
-/

namespace Ezpzdb

/-- Errors thrown by the embedded operations.  `invalidId` is the
`Error('id must exist and be at least 1')` thrown by update/remove/get;
`memoryPressure` is insert's low-memory throw; `typeError` models a property
access on `undefined` (operation on a table that was never created);
`fileNotFound` models `fs.openSync` / `n-readlines` throwing ENOENT. -/
inductive Err
  | invalidId
  | memoryPressure
  | typeError
  | fileNotFound
deriving Repr, DecidableEq

/-- A record handled by db.js: the reserved `id` field (possibly undefined,
hence `Option Int`) plus an opaque payload standing for the user fields. -/
structure Rec where
  id : Option Int := none
  payload : Nat := 0
deriving Repr, DecidableEq

/-- Property access `.id` on a plain JavaScript number yields `undefined`.
The `removals` buffer holds plain ids (numbers), yet db.js reads `.id` on its
elements in `get` and in the persistData sort comparator. -/
def jsNumId (_ : Int) : Option Int := none

/-- JavaScript `<` where either operand may be `undefined`: any comparison
involving `undefined` (NaN after coercion) is false. -/
def jsLtOptInt (a b : Option Int) : Bool :=
  match a, b with
  | some x, some y => decide (x < y)
  | _, _ => false

/-- JavaScript `item.id > start` where `item.id` may be `undefined`. -/
def jsGtOpt (o : Option Int) (s : Int) : Bool :=
  match o with
  | some v => decide (s < v)
  | none => false

/-- Array.prototype.findIndex: index of the first match, -1 when none. -/
def jsFindIndex (l : List Rec) (p : Rec → Bool) : Int :=
  match l.findIdx? p with
  | some i => (i : Int)
  | none => -1

/-- Per-table in-memory state, exactly the object built by
`Database.createTable` (db.js lines 111-127).  The legacy `items` list is
initialized empty and never filled by this version of the code. -/
structure Table where
  lastId : Int := 0
  beforeLastId : Int := 0
  items : List Rec := []
  inserts : List Rec := []
  updates : List Rec := []
  removals : List Int := []
  truncate : Int := -1
  cache : List Rec := []
deriving Repr, DecidableEq

/-- The Database state: `this.storage` of db.js plus a small model of the
filesystem as seen by the read path.  `existsFlag` is `storage.exists`
(a Lean keyword, hence the rename); `flushStarted` records that the scheduler
launched the asynchronous `persistData` task; `timerMs` is the duration of the
armed `setTimeout` (`lastPersistDataTimeout`); `fsIndex` lists the tables
whose index/db files exist on disk; `fsJunk` gives, per table, the sequence of
`msgpack.unpack` results produced by `get`'s scan — the scan never reads the
data file into its buffer, so those values are unspecified memory contents and
are therefore an input of the model. -/
structure Database where
  tables : List (String × Table) := []
  existsFlag : Bool := false
  writes : Nat := 0
  lastWrite : Int := 0
  worthPersistingNow : Bool := false
  leastfree : Nat := 64 * 1024 * 1024
  flushStarted : Bool := false
  timerMs : Option Nat := none
  fsIndex : List String := []
  fsJunk : List (String × List Rec) := []
deriving Repr, DecidableEq

/-- `this.storage.tables[table]`: `none` when the table was never created. -/
def Database.getTable (db : Database) (t : String) : Option Table :=
  (db.tables.find? (fun p => p.1 == t)).map (fun p => p.2)

/-- `this.storage.tables[table] = tbl`: replace in place when present,
append otherwise (JavaScript object insertion order). -/
def Database.setTable (db : Database) (t : String) (tbl : Table) : Database :=
  { db with tables :=
      if db.tables.any (fun p => p.1 == t) then
        db.tables.map (fun p => if p.1 == t then (t, tbl) else p)
      else
        db.tables ++ [(t, tbl)] }

/-- `Database.createTable` (db.js lines 111-127): fresh empty table state. -/
def Database.createTable (db : Database) (t : String) : Database :=
  db.setTable t {}

/-- Outcome of the scheduling decision in `asyncPersistData`
(db.js lines 147-169). -/
inductive SchedDecision
  | startFlush
  | armTimer (ms : Nat)
deriving Repr, DecidableEq

/-- The flush-scheduling decision of `asyncPersistData` (db.js lines
147-168), as a pure function of the write counter, the `lastWrite`
timestamp, the current time and the `worthPersistingNow` flag.  The
arithmetic mirrors the source: `lastWrite + 1000 * 60 * writes / 100`,
`lastWrite + 1000`, `lastWrite + 1000 * 60 * 2`, and the re-armed timeout
`(writes > 1000 ? 1 : 60) * 1000`. -/
def schedule (writes : Nat) (lastWrite now : Int) (worth : Bool) : SchedDecision :=
  if (100 ≤ writes ∧ lastWrite + 1000 * 60 * (writes : Int) / 100 ≤ now)
      ∨ (1000 ≤ writes ∧ lastWrite + 1000 ≤ now)
      ∨ (writes < 100 ∧ lastWrite + 1000 * 60 * 2 ≤ now)
      ∨ worth = true then
    .startFlush
  else
    .armTimer ((if 1000 < writes then 1 else 60) * 1000)

/-- Effect of one call to `asyncPersistData` on the stored state: on a due
decision the asynchronous `persistData` task is launched and
`worthPersistingNow` is cleared (db.js lines 156-160); otherwise the pending
timeout is replaced by a new one (lines 162-168).  The flush itself runs
asynchronously and its body is not part of this state change. -/
def runSched (db : Database) (now : Int) : Database :=
  match schedule db.writes db.lastWrite now db.worthPersistingNow with
  | .startFlush => { db with flushStarted := true, worthPersistingNow := false }
  | .armTimer ms => { db with timerMs := some ms }

/-- `Database.insert` (db.js lines 288-314).  `now` is `Date.now()` and
`freemem` is `os.freemem()`.  The memory guard throws only when the sampled
write count hits the cadence and free memory is below the floor; otherwise
the table is created on demand, the record's id is overwritten with
`++lastId`, the record is appended to the `inserts` buffer, the write
bookkeeping is updated and the scheduler is invoked. -/
def Database.insert (db : Database) (t : String) (data : Rec) (now : Int)
    (freemem : Nat) : Except Err (Database × Int) :=
  if (db.writes + 1) % 250000 = 0 ∧ freemem < db.leastfree then
    .error .memoryPressure
  else
    let db1 := if (db.getTable t).isSome then db else db.createTable t
    let tbl := (db1.getTable t).getD {}
    let newId := tbl.lastId + 1
    let tbl' := { tbl with
      beforeLastId := tbl.lastId
      lastId := newId
      inserts := tbl.inserts ++ [{ data with id := some newId }] }
    let db2 := db1.setTable t tbl'
    let db3 := { db2 with lastWrite := now, writes := db2.writes + 1 }
    .ok (runSched db3 now, newId)

/-- Result of `Database.get`: the found record, an explicit `null`, or
`undefined` (the function body ended without executing a return statement —
which is what actually happens whenever the id is found in the `updates` or
`inserts` buffer, since the final `return item` sits inside the
`if (!item)` block, db.js lines 383-416). -/
inductive GetResult
  | found (r : Rec)
  | nullRes
  | undef
deriving Repr, DecidableEq

/-- `Database.get` (db.js lines 371-417).  Resolution order as written:
updates, inserts (both branches fall off the end of the function, yielding
`undefined`), then inside the `if (!item)` block: the removals tombstone
check (which reads `.id` on plain number ids and thus never matches), the
cache, and finally the on-disk scan.  The scan opens the index and data
files (throwing when they do not exist, e.g. on a never-flushed table) and
unpacks a buffer it never filled from the file; those unpack results are the
`fsJunk` input of the model. -/
def Database.get (db : Database) (t : String) (id : Option Int) :
    Except Err GetResult :=
  if id = none ∨ id = some 0 then
    .error .invalidId
  else match db.getTable t with
  | none => .error .typeError
  | some tbl =>
    let item := tbl.updates.find? (fun r => r.id == id)
    let item := match item with
      | some r => some r
      | none => tbl.inserts.find? (fun r => r.id == id)
    match item with
    | some _ => .ok .undef
    | none =>
      if (tbl.removals.find? (fun m => jsNumId m == id)).isSome then
        .ok .nullRes
      else match tbl.cache.find? (fun r => r.id == id) with
      | some r => .ok (.found r)
      | none =>
        if db.fsIndex.contains t then
          match (((db.fsJunk.find? (fun p => p.1 == t)).map (fun p => p.2)).getD
              []).find? (fun r => r.id == id) with
          | some r => .ok (.found r)
          | none => .ok .nullRes
        else
          .error .fileNotFound

/-- `Database.update` (db.js lines 316-333): validate the id, replace the
matching `inserts` entry in place when present, otherwise append to
`updates`; update the write bookkeeping, invoke the scheduler, and return
`this.get(table, data.id)` (whose thrown errors propagate). -/
def Database.update (db : Database) (t : String) (data : Rec) (now : Int) :
    Except Err (Database × GetResult) :=
  if data.id = none ∨ data.id = some 0 then
    .error .invalidId
  else match db.getTable t with
  | none => .error .typeError
  | some tbl =>
    let tbl' := match tbl.inserts.findIdx? (fun r => r.id == data.id) with
      | some i => { tbl with inserts := tbl.inserts.set i data }
      | none => { tbl with updates := tbl.updates ++ [data] }
    let db2 := db.setTable t tbl'
    let db3 := { db2 with lastWrite := now, writes := db2.writes + 1 }
    let db4 := runSched db3 now
    (db4.get t data.id).map (fun g => (db4, g))

/-- `Database.remove` (db.js lines 335-351): validate the id, splice the
matching `inserts` entry when present, otherwise push the plain id onto
`removals` (`Option.toList` extracts the number, which the guard has shown
to exist); update the write bookkeeping, invoke the scheduler, return true. -/
def Database.remove (db : Database) (t : String) (id : Option Int) (now : Int) :
    Except Err (Database × Bool) :=
  if id = none ∨ id = some 0 then
    .error .invalidId
  else match db.getTable t with
  | none => .error .typeError
  | some tbl =>
    let tbl' := match tbl.inserts.findIdx? (fun r => r.id == id) with
      | some i => { tbl with inserts := tbl.inserts.eraseIdx i }
      | none => { tbl with removals := tbl.removals ++ id.toList }
    let db2 := db.setTable t tbl'
    let db3 := { db2 with lastWrite := now, writes := db2.writes + 1 }
    .ok (runSched db3 now, true)

/-- `Database.truncate` (db.js lines 357-369): no id validation.  Computes
`items.findIndex(item => item.id > start)` over the legacy `items` list
(always empty in this version, hence -1), updates the write bookkeeping,
resets `lastId` to `start`, sets `worthPersistingNow`, records the pending
truncate threshold, invokes the scheduler, and returns the findIndex
result. -/
def Database.truncate (db : Database) (t : String) (start : Int) (now : Int) :
    Except Err (Database × Int) :=
  match db.getTable t with
  | none => .error .typeError
  | some tbl =>
    let index := jsFindIndex tbl.items (fun r => jsGtOpt r.id start)
    let tbl' := { tbl with lastId := start, truncate := start }
    let db2 := db.setTable t tbl'
    let db3 := { db2 with
      lastWrite := now
      writes := db2.writes + 1
      worthPersistingNow := true }
    .ok (runSched db3 now, index)

/-- Startup recovery for one table directory of an existing database
(`Database.initialize`, db.js lines 97-104): `next := liner.next()` reads
the first line of the index file, `lastId` starts at 0, and only
`if (next) lastId = parseInt(next)` updates it.  `firstLine = none` models an
index file with no readable first line (`liner.next()` returned false);
`some n` models a first line parsing to `n`.  No error path exists in the
source for the unreadable case. -/
def recoverTable (firstLine : Option Int) : Except Err Table :=
  match firstLine with
  | none => .ok { lastId := 0 }
  | some n => .ok { lastId := n }

/-- The sort comparator applied to the `removals` buffer in `persistData`
(db.js lines 218-222): `(a, b) => a.id > b.id ? 1 : (a.id < b.id ? -1 : 0)`.
The buffer holds plain number ids, so both `.id` accesses yield `undefined`
and both comparisons are false. -/
def removalsCmp (a b : Int) : Int :=
  if jsLtOptInt (jsNumId b) (jsNumId a) then 1
  else if jsLtOptInt (jsNumId a) (jsNumId b) then -1
  else 0

/-- Stable insertion step: place `x` after every accumulated element the
comparator does not order strictly after `x`. -/
def insertStable (le : Int → Int → Bool) (x : Int) : List Int → List Int
  | [] => [x]
  | y :: ys => if le y x then y :: insertStable le x ys else x :: y :: ys

/-- The `removals.sort(comparator)` call.  Array.prototype.sort is a stable
sort driven by the comparator; a stable insertion sort is extensionally the
same on any consistent comparator and computes structurally. -/
def removalsSort (l : List Int) : List Int :=
  l.foldl (fun acc x =>
    insertStable (fun a b => decide (removalsCmp a b ≤ 0)) x acc) []

/-- The per-record copy test of the removal rewrite pass (db.js line 237):
a record read from the index is copied into the replacement files exactly
when `!(recordId === removal && removal <= lastId)` holds.  (The source
reads these fields off an undeclared variable `table`; the enclosing
iteration's table state is the evident referent and is what the parameters
stand for.) -/
def keepRecord (recId removal lastId : Int) : Bool :=
  !(recId == removal && decide (removal ≤ lastId))

/-- One removal rewrite pass over the index entries (byte length, id):
stream every entry, keeping those the copy test accepts. -/
def removalPass (removal lastId : Int) (entries : List (Nat × Int)) :
    List (Nat × Int) :=
  entries.filter (fun e => keepRecord e.2 removal lastId)

/-
The Row Container, src/ezpzdb/db/effset.js.  A record given to the container
is a JavaScript object, modelled as a list of (field name, value) pairs in
insertion order with numeric values standing for arbitrary payloads.  A
reconstructed record can carry `undefined` values, so its value type is
`Option Nat` with `none` for `undefined`.
-/

/-- The JavaScript `key in array` test used by EffSet: the `in` operator
checks property keys of the array object, i.e. the canonical numeric indices
below its length, plus `length` — never the stored string values.  (Inherited
Array.prototype method names would also pass the test; the records used here
carry none of those names.) -/
def jsInArray (key : String) (len : Nat) : Bool :=
  key == "length" || (List.range len).any (fun n => toString n == key)

/-- JavaScript array element assignment `arr[i] = v` on an array of slots:
extends the array with holes when the index lies beyond the length.  A hole
and an explicitly undefined slot read back identically, so both are `none`. -/
def jsSetAt (l : List (Option Nat)) (i : Nat) (v : Nat) : List (Option Nat) :=
  if i < l.length then l.set i (some v)
  else (l ++ List.replicate (i - l.length) none) ++ [some v]

/-- JavaScript array element read `arr[i]`: `undefined` beyond the length,
and `undefined` for a hole. -/
def jsGetSlot (entry : List (Option Nat)) (i : Nat) : Option Nat :=
  (entry.get? i).join

/-- JavaScript object property assignment `obj[k] = v`: overwrite in place
when the key exists, append otherwise. -/
def jsObjSet (obj : List (String × Option Nat)) (k : String) (v : Option Nat) :
    List (String × Option Nat) :=
  if obj.any (fun p => p.1 == k) then
    obj.map (fun p => if p.1 == k then (k, v) else p)
  else
    obj ++ [(k, v)]

/-- The EffSet state: the field directory and the positional entries.  An
entry slot of `none` models a JavaScript hole (`entries[index] = null` after
`remove`, or an index never assigned). -/
structure EffSet where
  fields : List String := []
  entries : List (Option (List (Option Nat))) := []
deriving Repr, DecidableEq

/-- JavaScript array element assignment on the entries array. -/
def jsEntriesSetAt (l : List (Option (List (Option Nat)))) (i : Nat)
    (e : List (Option Nat)) : List (Option (List (Option Nat))) :=
  if i < l.length then l.set i (some e)
  else (l ++ List.replicate (i - l.length) none) ++ [some e]

/-- `EffSet.push` (effset.js lines 10-19): allocate
`entry = new Array(this.fields.length)`, then for each field of the record
in insertion order, register the name unless `key in this.fields` holds
(the array-index test above, not a membership test), and store the value at
`this.fields.indexOf(key)` — the first occurrence of the name; an indexOf
miss (-1) creates a non-index property, i.e. the value lands in no slot.
Finally append the entry. -/
def EffSet.push (s : EffSet) (elem : List (String × Nat)) : EffSet :=
  let step := fun (acc : List String × List (Option Nat)) (kv : String × Nat) =>
    let fields' := if jsInArray kv.1 acc.1.length then acc.1 else acc.1 ++ [kv.1]
    match fields'.findIdx? (fun f => f == kv.1) with
    | some i => (fields', jsSetAt acc.2 i kv.2)
    | none => (fields', acc.2)
  let start : List String × List (Option Nat) :=
    (s.fields, List.replicate s.fields.length none)
  let res := elem.foldl step start
  { fields := res.1, entries := s.entries ++ [some res.2] }

/-- Reconstruction loop of `EffSet.get` (effset.js lines 33-36):
`obj[this.fields[i]] = entry[i]` for every directory position, assigning
`undefined` where the slot is absent; with duplicated directory names the
later position overwrites the earlier value. -/
def reconstruct (fields : List String) (entry : List (Option Nat)) :
    List (String × Option Nat) :=
  fields.enum.foldl (fun obj p => jsObjSet obj p.2 (jsGetSlot entry p.1)) []

/-- `EffSet.get` (effset.js lines 29-39): `undefined` for an absent or
tombstoned entry, otherwise the reconstructed record view. -/
def EffSet.get (s : EffSet) (index : Nat) : Option (List (String × Option Nat)) :=
  match (s.entries.get? index).join with
  | none => none
  | some entry => some (reconstruct s.fields entry)

/-- `EffSet.set` (effset.js lines 49-58): for each field of the record,
register the name under the same `key in this.fields` test, then allocate a
FRESH `entry = []` inside the loop body, store this single field's value at
`this.fields.indexOf(key)`, and overwrite `this.entries[index]` with that
one-field entry — so each iteration discards the previous one's slot. -/
def EffSet.set (s : EffSet) (index : Nat) (elem : List (String × Nat)) : EffSet :=
  elem.foldl
    (fun acc kv =>
      let fields' := if jsInArray kv.1 acc.fields.length then acc.fields
        else acc.fields ++ [kv.1]
      let entry : List (Option Nat) :=
        match fields'.findIdx? (fun f => f == kv.1) with
        | some i => jsSetAt [] i kv.2
        | none => []
      { fields := fields', entries := jsEntriesSetAt acc.entries index entry })
    s

/-- A plain record written as the reconstructed-record type, for comparing a
round trip: every field present with its (defined) value. -/
def asObj (elem : List (String × Nat)) : List (String × Option Nat) :=
  elem.map (fun kv => (kv.1, some kv.2))

/-
Spec-side definition used to settle the truncate claim (C3): the words of the
specification, "the count of currently-buffered records with id greater than
start that will be discarded", rendered over the pending-insert buffer.
-/

/-- Modelled from the spec wording for the return value of truncate: the
number of buffered (pending-insert) records whose id exceeds the threshold. -/
def specTruncateCount (db : Database) (t : String) (start : Int) : Nat :=
  (((db.getTable t).getD {}).inserts.filter (fun r => jsGtOpt r.id start)).length

/-
Concrete states used by the evaluation theorems and witnesses.
-/

/-- A freshly constructed database over an empty directory: no tables, no
on-disk files. -/
def freshDb : Database := {}

/-- The state after inserting one record (payload 7) into table t of the
fresh database; the insert assigns id 1. -/
def dbAfterInsert : Database :=
  match Database.insert freshDb "t" { id := none, payload := 7 } 0 1000000000 with
  | .ok p => p.1
  | .error _ => freshDb

/-- The table state inside `dbAfterInsert`. -/
def tblAfterInsert : Table :=
  { lastId := 1, inserts := [{ id := some 1, payload := 7 }] }

/-- The state after additionally removing id 1 (still before any flush). -/
def dbAfterRemove : Database :=
  match Database.remove dbAfterInsert "t" (some 1) 0 with
  | .ok p => p.1
  | .error _ => dbAfterInsert

/-- The state after truncating table t of `dbAfterInsert` to 0. -/
def dbAfterTruncate : Database :=
  match Database.truncate dbAfterInsert "t" 0 0 with
  | .ok p => p.1
  | .error _ => dbAfterInsert

/-- The `lastId` counter of a table as the operations observe it: 0 when the
table does not exist yet (it is then created with `lastId = 0`). -/
def lastIdOf (db : Database) (t : String) : Int :=
  ((db.getTable t).getD {}).lastId

/-- The pending truncate threshold of a table (-1 both for "no pending
truncate" and for a missing table, matching the freshly created state). -/
def truncOf (db : Database) (t : String) : Int :=
  ((db.getTable t).getD {}).truncate

/-- Row Container state after pushing the one-field record with field a and
value 1, then the one-field record with field a and value 2. -/
def effAfterTwoPushes : EffSet :=
  EffSet.push (EffSet.push {} [("a", 1)]) [("a", 2)]

/-- Row Container state after `set(0, record)` on a fresh container, with a
two-field record (a maps to 1, b maps to 2). -/
def effAfterSet : EffSet :=
  EffSet.set {} 0 [("a", 1), ("b", 2)]

/-
Helper lemmas about the state representation.
-/

theorem find?_replace_of_any (l : List (String × Table)) (t : String)
    (tbl : Table) (h : l.any (fun p => p.1 == t) = true) :
    (l.map (fun p => if p.1 == t then (t, tbl) else p)).find?
      (fun p => p.1 == t) = some (t, tbl) := by
  induction l with
  | nil => simp at h
  | cons hd tl ih =>
    by_cases hh : (hd.1 == t) = true
    · have he : hd.1 = t := by simpa using hh
      simp [List.find?_cons, he]
    · have hf : (hd.1 == t) = false := by
        cases hb : (hd.1 == t) with
        | false => rfl
        | true => exact absurd hb hh
      have htl : tl.any (fun p => p.1 == t) = true := by
        simp only [List.any_cons, Bool.or_eq_true] at h
        exact h.resolve_left hh
      have hne : ¬ hd.1 = t := by simpa using hh
      have hmap : (hd :: tl).map (fun p => if p.1 == t then (t, tbl) else p)
          = hd :: tl.map (fun p => if p.1 == t then (t, tbl) else p) := by
        simp [hne]
      rw [hmap, List.find?_cons, hf]
      exact ih htl

theorem find?_append_single (l : List (String × Table)) (t : String)
    (tbl : Table) (h : l.any (fun p => p.1 == t) = false) :
    ((l ++ [(t, tbl)]).find? (fun p => p.1 == t)) = some (t, tbl) := by
  rw [List.find?_append]
  have hnone : l.find? (fun p => p.1 == t) = none := by
    rw [List.find?_eq_none]
    intro x hx hpx
    have hany : l.any (fun p => p.1 == t) = true :=
      List.any_eq_true.mpr ⟨x, hx, hpx⟩
    rw [h] at hany
    exact Bool.noConfusion hany
  rw [hnone]
  simp [List.find?]

theorem getTable_setTable_self (db : Database) (t : String) (tbl : Table) :
    (db.setTable t tbl).getTable t = some tbl := by
  unfold Database.setTable Database.getTable
  by_cases h : db.tables.any (fun p => p.1 == t)
  · simp only [h, if_true, find?_replace_of_any db.tables t tbl h]
    rfl
  · simp only [Bool.not_eq_true] at h
    simp only [h, Bool.false_eq_true, if_false,
      find?_append_single db.tables t tbl h]
    rfl

theorem runSched_tables (db : Database) (now : Int) :
    (runSched db now).tables = db.tables := by
  unfold runSched
  split <;> rfl

theorem lastIdOf_runSched (db : Database) (now : Int) (t : String) :
    lastIdOf (runSched db now) t = lastIdOf db t := by
  unfold lastIdOf Database.getTable
  rw [runSched_tables]

theorem lastIdOf_setTable (db : Database) (t : String) (tbl : Table) :
    lastIdOf (db.setTable t tbl) t = tbl.lastId := by
  unfold lastIdOf
  rw [getTable_setTable_self]
  rfl

theorem schedule_worth_true (w : Nat) (lw now : Int) :
    schedule w lw now true = .startFlush := by
  unfold schedule
  rw [if_pos (Or.inr (Or.inr (Or.inr rfl)))]

theorem except_map_ok {ε α β : Type} (f : α → β) (e : Except ε α) (y : β)
    (h : Except.map f e = .ok y) : ∃ x, e = .ok x ∧ y = f x := by
  cases e with
  | error _ => exact absurd h (by simp [Except.map])
  | ok x =>
    refine ⟨x, rfl, ?_⟩
    simpa [Except.map] using h.symm

/-- C6.  The flush scheduler, evaluated with write count `w` and elapsed
time `now - lw` since the last write, starts a flush exactly when one of the
due conditions holds — `w ≥ 100` and elapsed ≥ `w/100` minutes (600·w ms),
or `w ≥ 1000` and elapsed ≥ 1 second, or `w < 100` and elapsed ≥ 2 minutes,
or the forced `worthPersistingNow` flag is set — and otherwise re-arms a
timer of 1 second when `w > 1000` and 60 seconds otherwise. -/
theorem flush_scheduler_policy (w : Nat) (lw now : Int) (worth : Bool) :
    schedule w lw now worth =
      if (100 ≤ w ∧ 600 * (w : Int) ≤ now - lw)
          ∨ (1000 ≤ w ∧ 1000 ≤ now - lw)
          ∨ (w < 100 ∧ 120000 ≤ now - lw)
          ∨ worth = true then
        .startFlush
      else
        .armTimer (if 1000 < w then 1000 else 60000) := by
  unfold schedule
  have hdiv : 1000 * 60 * (w : Int) / 100 = 600 * w := by
    rw [show (1000 * 60 * (w : Int)) = 100 * (600 * w) by ring]
    exact Int.mul_ediv_cancel_left _ (by norm_num)
  rw [hdiv]
  have harm : ((if 1000 < w then 1 else 60) * 1000)
      = (if 1000 < w then 1000 else 60000 : Nat) := by
    by_cases hw : 1000 < w <;> simp [hw]
  rw [harm]
  refine if_congr ?_ rfl rfl
  constructor
  · rintro (⟨h1, h2⟩ | ⟨h1, h2⟩ | ⟨h1, h2⟩ | hw)
    · exact Or.inl ⟨h1, by omega⟩
    · exact Or.inr (Or.inl ⟨h1, by omega⟩)
    · exact Or.inr (Or.inr (Or.inl ⟨h1, by omega⟩))
    · exact Or.inr (Or.inr (Or.inr hw))
  · rintro (⟨h1, h2⟩ | ⟨h1, h2⟩ | ⟨h1, h2⟩ | hw)
    · exact Or.inl ⟨h1, by omega⟩
    · exact Or.inr (Or.inl ⟨h1, by omega⟩)
    · exact Or.inr (Or.inr (Or.inl ⟨h1, by omega⟩))
    · exact Or.inr (Or.inr (Or.inr hw))

/-- C4.  Per table, the id assigned by `insert` is the current `lastId` plus
one, and `lastId` is set to that id — so successive inserts yield strictly
increasing ids and a fresh table (whose `lastId` starts at 0) gets id 1;
`update` and `remove` never change `lastId` (`get` does not mutate state at
all); and `truncate(t, k)` resets `lastId` to exactly `k`, after which the
insert clause yields `k + 1` for the next insert. -/
theorem insert_ids_monotone :
    (∀ db t data now fm db' i,
        Database.insert db t data now fm = .ok (db', i) →
        i = lastIdOf db t + 1 ∧ lastIdOf db' t = i) ∧
    (∀ db t data now db' g,
        Database.update db t data now = .ok (db', g) →
        lastIdOf db' t = lastIdOf db t) ∧
    (∀ db t id now db' b,
        Database.remove db t id now = .ok (db', b) →
        lastIdOf db' t = lastIdOf db t) ∧
    (∀ db t s now db' r,
        Database.truncate db t s now = .ok (db', r) →
        lastIdOf db' t = s) ∧
    ({} : Table).lastId = 0 := by
  refine ⟨?_, ?_, ?_, ?_, rfl⟩
  · intro db t data now fm db' i h
    unfold Database.insert at h
    by_cases hm : (db.writes + 1) % 250000 = 0 ∧ fm < db.leastfree
    · rw [if_pos hm] at h
      exact absurd h (by simp)
    · rw [if_neg hm] at h
      simp only [Except.ok.injEq, Prod.mk.injEq] at h
      obtain ⟨hdb, hi⟩ := h
      by_cases hp : (db.getTable t).isSome
      · simp only [hp, if_true] at hdb hi
        constructor
        · rw [← hi]
          rfl
        · rw [← hdb, lastIdOf_runSched]
          show lastIdOf ((db.setTable t _)) t = i
          rw [lastIdOf_setTable, ← hi]
      · simp only [hp, Bool.false_eq_true, if_false] at hdb hi
        have hnone : db.getTable t = none := by
          rw [← Option.not_isSome_iff_eq_none]
          simpa using hp
        have hcreate : (db.createTable t).getTable t = some ({} : Table) :=
          getTable_setTable_self db t {}
        rw [hcreate] at hdb hi
        constructor
        · rw [← hi]
          unfold lastIdOf
          rw [hnone]
          rfl
        · rw [← hdb, lastIdOf_runSched]
          show lastIdOf (((db.createTable t).setTable t _)) t = i
          rw [lastIdOf_setTable, ← hi]
  · intro db t data now db' g h
    unfold Database.update at h
    by_cases hv : data.id = none ∨ data.id = some 0
    · rw [if_pos hv] at h
      exact absurd h (by simp)
    · rw [if_neg hv] at h
      cases hg : db.getTable t with
      | none =>
        rw [hg] at h
        exact absurd h (by simp)
      | some tbl =>
        rw [hg] at h
        obtain ⟨gv, -, hpair⟩ := except_map_ok _ _ _ h
        have hdb : db' = _ := congrArg Prod.fst hpair
        rw [hdb, lastIdOf_runSched]
        show lastIdOf ((db.setTable t _)) t = lastIdOf db t
        rw [lastIdOf_setTable]
        unfold lastIdOf
        rw [hg]
        cases hfi : (tbl.inserts.findIdx? fun r => r.id == data.id) with
        | none => rfl
        | some idx => rfl
  · intro db t id now db' b h
    unfold Database.remove at h
    by_cases hv : id = none ∨ id = some 0
    · rw [if_pos hv] at h
      exact absurd h (by simp)
    · rw [if_neg hv] at h
      cases hg : db.getTable t with
      | none =>
        rw [hg] at h
        exact absurd h (by simp)
      | some tbl =>
        rw [hg] at h
        simp only [Except.ok.injEq, Prod.mk.injEq] at h
        obtain ⟨hdb, -⟩ := h
        rw [← hdb, lastIdOf_runSched]
        show lastIdOf ((db.setTable t _)) t = lastIdOf db t
        rw [lastIdOf_setTable]
        cases hfi : (tbl.inserts.findIdx? fun r => r.id == id) with
        | none =>
          simp only [hfi]
          unfold lastIdOf
          rw [hg]
          rfl
        | some idx =>
          simp only [hfi]
          unfold lastIdOf
          rw [hg]
          rfl
  · intro db t s now db' r h
    unfold Database.truncate at h
    cases hg : db.getTable t with
    | none =>
      rw [hg] at h
      exact absurd h (by simp)
    | some tbl =>
      rw [hg] at h
      simp only [Except.ok.injEq, Prod.mk.injEq] at h
      obtain ⟨hdb, -⟩ := h
      rw [← hdb, lastIdOf_runSched]
      show lastIdOf ((db.setTable t _)) t = s
      rw [lastIdOf_setTable]

/-- Witness for C4: applying the theorem at concrete inputs — the single
insert into the fresh database was assigned id 1 = 0 + 1 and left
`lastId = 1`; truncating that state to 0 left `lastId = 0`. -/
theorem insert_ids_monotone_witness :
    ((1 : Int) = lastIdOf freshDb "t" + 1 ∧ lastIdOf dbAfterInsert "t" = 1) ∧
    lastIdOf dbAfterTruncate "t" = 0 :=
  ⟨insert_ids_monotone.1 freshDb "t" { id := none, payload := 7 } 0 1000000000
      dbAfterInsert 1 rfl,
    insert_ids_monotone.2.2.2.1 dbAfterInsert "t" 0 0 dbAfterTruncate (-1)
      rfl⟩

theorem runSched_flushStarted_of_worth (db : Database) (now : Int)
    (h : db.worthPersistingNow = true) :
    (runSched db now).flushStarted = true
      ∧ (runSched db now).worthPersistingNow = false := by
  unfold runSched
  rw [h, schedule_worth_true]
  exact ⟨rfl, rfl⟩

theorem truncOf_runSched (db : Database) (now : Int) (t : String) :
    truncOf (runSched db now) t = truncOf db t := by
  unfold truncOf Database.getTable
  rw [runSched_tables]

theorem truncOf_setTable (db : Database) (t : String) (tbl : Table) :
    truncOf (db.setTable t tbl) t = tbl.truncate := by
  unfold truncOf
  rw [getTable_setTable_self]
  rfl

/-- C1.  Code-bug evaluation: immediately after the insert of a record into
table t of the fresh database — the record sits in the `inserts` buffer with
its assigned id 1 and no flush has run — `get(t, 1)` yields `undefined`, not
the just-written record: both buffer-hit branches of `get` fall off the end
of the function because the only `return item` statement sits inside the
`if (!item)` block (db.js lines 383-416). -/
theorem get_after_insert_undefined :
    Database.insert freshDb "t" { id := none, payload := 7 } 0 1000000000
      = .ok (dbAfterInsert, 1) ∧
    (dbAfterInsert.getTable "t").map (fun x => x.inserts)
      = some [{ id := some 1, payload := 7 }] ∧
    Database.get dbAfterInsert "t" (some 1) = .ok GetResult.undef :=
  ⟨rfl, rfl, rfl⟩

/-- C2.  Code-bug evaluation: after insert (id 1) and remove (which splices
the record out of the `inserts` buffer), `get(t, 1)` on the never-flushed
database reaches the on-disk scan and throws a file-open error — an error,
not a not-found result value.  The final conjunct shows the tombstone check
itself is inert: `removals` holds plain number ids, and
`removals.find(item => item.id === id)` reads `.id` of a number
(`undefined`), so it never matches even when the id is in the buffer. -/
theorem get_after_remove_throws :
    Database.remove dbAfterInsert "t" (some 1) 0 = .ok (dbAfterRemove, true) ∧
    (dbAfterRemove.getTable "t").map (fun x => (x.inserts, x.removals))
      = some ([], []) ∧
    Database.get dbAfterRemove "t" (some 1) = .error .fileNotFound ∧
    (([5] : List Int).find? (fun m => jsNumId m == some 5)) = none :=
  ⟨rfl, rfl, rfl, rfl⟩

/-- C3 counterexample.  With exactly one buffered record (id 1) in table t,
`truncate(t, 0)` returns -1, while the count of currently-buffered records
with id greater than 0 that will be discarded is 1: the return value is
`items.findIndex(...)` over the always-empty legacy `items` list, not the
claimed count. -/
theorem truncate_return_not_buffered_count :
    (Database.truncate dbAfterInsert "t" 0 0).map (fun p => p.2) = .ok (-1) ∧
    specTruncateCount dbAfterInsert "t" 0 = 1 ∧ (-1 : Int) ≠ 1 :=
  ⟨rfl, rfl, by decide⟩

/-- C3 amended.  For every existing table, `truncate(t, start)` succeeds
(never validates anything), sets the pending truncate marker to `start`,
resets `lastId` to `start`, sets the forced-flush flag — which the scheduler
call at the end of truncate immediately consumes, starting a flush — and
returns `items.findIndex(item => item.id > start)` over the legacy `items`
list (-1 when no such item; `items` is never populated in this version), not
the count of buffered records that will be discarded. -/
theorem truncate_amended (db : Database) (t : String) (start now : Int)
    (tbl : Table) (h : db.getTable t = some tbl) :
    (Database.truncate db t start now).isOk = true ∧
    ∀ db' r, Database.truncate db t start now = .ok (db', r) →
      r = jsFindIndex tbl.items (fun x => jsGtOpt x.id start) ∧
      truncOf db' t = start ∧ lastIdOf db' t = start ∧
      db'.flushStarted = true ∧ db'.worthPersistingNow = false := by
  constructor
  · unfold Database.truncate
    rw [h]
    rfl
  · intro db' r h2
    unfold Database.truncate at h2
    rw [h] at h2
    simp only [Except.ok.injEq, Prod.mk.injEq] at h2
    obtain ⟨hdb, hr⟩ := h2
    refine ⟨hr.symm, ?_, ?_, ?_, ?_⟩
    · rw [← hdb, truncOf_runSched]
      show truncOf ((db.setTable t _)) t = start
      rw [truncOf_setTable]
    · rw [← hdb, lastIdOf_runSched]
      show lastIdOf ((db.setTable t _)) t = start
      rw [lastIdOf_setTable]
    · rw [← hdb]
      exact (runSched_flushStarted_of_worth _ now rfl).1
    · rw [← hdb]
      exact (runSched_flushStarted_of_worth _ now rfl).2

/-- Witness for the amended C3, at the state with one buffered insert. -/
theorem truncate_amended_witness :
    (Database.truncate dbAfterInsert "t" 0 0).isOk = true ∧
    ((-1 : Int) = jsFindIndex tblAfterInsert.items (fun x => jsGtOpt x.id 0) ∧
      truncOf dbAfterTruncate "t" = 0 ∧ lastIdOf dbAfterTruncate "t" = 0 ∧
      dbAfterTruncate.flushStarted = true ∧
      dbAfterTruncate.worthPersistingNow = false) :=
  ⟨(truncate_amended dbAfterInsert "t" 0 0 tblAfterInsert rfl).1,
    (truncate_amended dbAfterInsert "t" 0 0 tblAfterInsert rfl).2
      dbAfterTruncate (-1) rfl⟩

/-- C5 counterexample.  `truncate` performs no id validation at all: called
with threshold 0 (the claim's "missing or not a positive integer" case — 0
is also the default for an omitted argument) on a table with one buffered
record, it succeeds and mutates state, resetting `lastId` from 1 to 0,
instead of failing with InvalidId and mutating nothing. -/
theorem truncate_accepts_zero_and_mutates :
    (Database.truncate dbAfterInsert "t" 0 0).isOk = true ∧
    lastIdOf dbAfterInsert "t" = 1 ∧ lastIdOf dbAfterTruncate "t" = 0 :=
  ⟨rfl, rfl, rfl⟩

/-- C5 amended.  `update`, `remove` and `get` fail synchronously with the
InvalidId error exactly when the target id is `undefined` or `0` (the checks
run before any mutation, so no state changes); an id that is negative — and
hence not a positive integer — passes the validation (remove with id -1 on
an existing table succeeds); and `truncate` has no validation and succeeds
on any threshold whenever the table exists. -/
theorem invalid_id_validation_amended :
    (∀ db t data now, (data.id = none ∨ data.id = some 0) →
        Database.update db t data now = .error .invalidId) ∧
    (∀ db t id now, (id = none ∨ id = some 0) →
        Database.remove db t id now = .error .invalidId) ∧
    (∀ db t id, (id = none ∨ id = some 0) →
        Database.get db t id = .error .invalidId) ∧
    (∀ db t now tbl, db.getTable t = some tbl →
        (Database.remove db t (some (-1)) now).isOk = true) ∧
    (∀ db t start now tbl, db.getTable t = some tbl →
        (Database.truncate db t start now).isOk = true) := by
  refine ⟨?_, ?_, ?_, ?_, ?_⟩
  · intro db t data now hv
    unfold Database.update
    rw [if_pos hv]
  · intro db t id now hv
    unfold Database.remove
    rw [if_pos hv]
  · intro db t id hv
    unfold Database.get
    rw [if_pos hv]
  · intro db t now tbl hg
    unfold Database.remove
    rw [if_neg (by simp), hg]
    rfl
  · intro db t start now tbl hg
    unfold Database.truncate
    rw [hg]
    rfl

/-- Witness for the amended C5: update with an undefined id throws
InvalidId; remove with id -1 and truncate with threshold 0 on the
one-record state succeed. -/
theorem invalid_id_validation_amended_witness :
    Database.update freshDb "t" { id := none, payload := 0 } 0
      = .error .invalidId ∧
    (Database.remove dbAfterInsert "t" (some (-1)) 0).isOk = true ∧
    (Database.truncate dbAfterInsert "t" 5 0).isOk = true :=
  ⟨invalid_id_validation_amended.1 freshDb "t" { id := none, payload := 0 } 0
      (Or.inl rfl),
    invalid_id_validation_amended.2.2.2.1 dbAfterInsert "t" 0 tblAfterInsert
      rfl,
    invalid_id_validation_amended.2.2.2.2 dbAfterInsert "t" 5 0 tblAfterInsert
      rfl⟩

/-- C7.  Code-bug evaluation of the removal rewrite logic in `persistData`.
The sort comparator reads `.id` of plain number ids, so every comparison
yields 0 and the "ascending" sort leaves the buffer in insertion order:
[3, 1] stays [3, 1], which is not sorted.  The per-record copy test is
`!(recordId === removal && removal <= lastId)`: with `lastId = 10` it skips
exactly the matching record (id 5), but with `lastId = 3 < removal` the
matching record is copied — the pass does not "skip exactly the record whose
id equals the pending removal id". -/
theorem removals_sort_and_skip_eval :
    removalsSort [3, 1] = [3, 1] ∧
    ¬ List.Sorted (fun a b => a ≤ b) (removalsSort [3, 1]) ∧
    removalsCmp 3 1 = 0 ∧
    keepRecord 5 5 3 = true ∧ keepRecord 5 5 10 = false ∧
    removalPass 5 3 [(10, 5), (4, 2)] = [(10, 5), (4, 2)] ∧
    removalPass 5 10 [(10, 5), (4, 2)] = [(4, 2)] := by
  decide

/-- C8.  Code-bug evaluation of the Row Container push/get round trip.
`key in this.fields` tests array indices of the directory, never its stored
strings, so pushing a second record with the already-seen field a registers
the name again: the directory becomes ["a", "a"], violating
"each field name at most once".  Reconstruction then assigns the value from
the first duplicate position and overwrites it with `undefined` from the
second, so `get` returns a record with field a undefined instead of the
pushed record — for the second push (value 2) and even for the first
(value 1). -/
theorem effset_push_get_duplicates_fields :
    effAfterTwoPushes.fields = ["a", "a"] ∧
    EffSet.get effAfterTwoPushes 1 = some [("a", none)] ∧
    EffSet.get effAfterTwoPushes 1 ≠ some (asObj [("a", 2)]) ∧
    EffSet.get effAfterTwoPushes 0 ≠ some (asObj [("a", 1)]) := by
  decide

/-- C9.  Code-bug evaluation of `EffSet.set`: the positional entry is
re-created empty inside the per-field loop, so each iteration discards the
previous field's value and only the last field survives.  After
`set(0, record)` with a two-field record (a maps to 1, b maps to 2) on a
fresh container, `get(0)` reconstructs a with `undefined` and b with 2 —
not all of the record's fields as the claim states. -/
theorem effset_set_keeps_last_field_only :
    EffSet.get effAfterSet 0 = some [("a", none), ("b", some 2)] ∧
    EffSet.get effAfterSet 0 ≠ some (asObj [("a", 1), ("b", 2)]) := by
  decide

/-- C10 counterexample.  Startup recovery of a table directory whose index
file has no readable first line (`liner.next()` returned false) silently
yields a table with `lastId = 0` — a success value, not a surfaced recovery
failure. -/
theorem startup_empty_index_silently_ok :
    recoverTable none = .ok { lastId := 0 } :=
  rfl

/-- C10 amended.  Per-table startup recovery never fails: an unreadable
first line is silently treated as an empty table with `lastId = 0`, and a
readable first line yields its parsed value (only a missing or unopenable
index file would escape as a file-open error, outside this step). -/
theorem startup_recovery_never_fails :
    ∀ firstLine, recoverTable firstLine = .ok { lastId := firstLine.getD 0 } := by
  intro fl
  cases fl <;> rfl

end Ezpzdb
